import Mathlib

/-!
Shallow embedding of the grid-assignment engine of `tools/suggest-grid.mjs`
(w3c/tpac2023-breakouts), together with proofs about its behaviour.

Modelling conventions:
* JS objects become structures.  A field that the program only ever reads as
  either a string or a falsy value (`undefined` or `""`) is modelled as
  `Option String`, with `none` standing for the falsy case; JS truthiness
  tests on such fields become `Option.isSome` / `≠ none`.
* Sessions are identified by their position in the (already shuffled) session
  list; JS object identity (`s !== session`) becomes index inequality.
* The mutable `room.sessions` / `slot.sessions` arrays are modelled as
  name-indexed lists of session indices carried in the scheduler state, pushed
  to exactly where the source pushes.
* `Array.prototype.sort` (stable) is modelled by a stable insertion sort
  parameterised by the JS comparator (an `Int`-valued function).
* Where the source would throw a `TypeError` on ill-formed data (a preserved
  room/slot name that does not exist in the room/slot inventory), the
  embedding uses `Option`/`.toList`, which yields an empty candidate list
  instead; run-level theorems are unaffected because the JS run would not
  reach its end on such inputs.
-/

namespace SuggestGrid

/-- A chair record as consumed by the engine (login and display name,
`none` for a missing/falsy value). -/
structure Chair where
  login : Option String
  name : Option String
deriving DecidableEq

/-- The parsed session body fields used by the engine. -/
structure SessionDesc where
  capacity : Nat
  duration : Nat
  conflicts : Option (List Nat)
deriving DecidableEq

/-- A session record.  `tracks` is derived from the labels at normalization
time (line 156-164); `track` (singular) is a property the program never
assigns, so it is always `none` — it is read once, at line 201, which is the
`slotsTaken` bug examined below.  `processed` and `updated` are the mutable
flags used by the orchestrator and the apply phase. -/
structure Session where
  number : Nat
  labels : List String
  chairs : List Chair
  description : SessionDesc
  room : Option String
  slot : Option String
  tracks : List String
  track : Option String
  processed : Bool
  updated : Bool
deriving DecidableEq

/-- The value JS property reads produce on an absent object: used as the
`getD` default when an index is out of range (never reached on the real
control paths). -/
def defaultSession : Session :=
  { number := 0, labels := [], chairs := [],
    description := { capacity := 0, duration := 0, conflicts := none },
    room := none, slot := none, tracks := [], track := none,
    processed := false, updated := false }

/-- A room record. -/
structure Room where
  name : String
  capacity : Nat
deriving DecidableEq

/-- A slot record.  `pos` is the stable ordinal position assigned at
line 168-169 (`slot.pos = slots.indexOf(slot)`); concrete instances set it
to the slot's index. -/
structure Slot where
  name : String
  duration : Nat
  pos : Nat
deriving DecidableEq

/-- The two relaxable conflict categories of `meetConflicts`. -/
inductive ConflictKind where
  | session
  | track
deriving DecidableEq

/-- The constraint set threaded through `setRoomAndSlot` (line 226-228 and
the object literal at line 351-357). -/
structure Constraints where
  trackRoom : Option Room
  strictDuration : Bool
  meetDuration : Bool
  meetCapacity : Bool
  meetConflicts : List ConflictKind
deriving DecidableEq

/-- The scheduler state: the session list plus the per-room and per-slot
occupancy views (`room.sessions` / `slot.sessions`), kept as lists of session
indices keyed by room/slot name. -/
structure Sched where
  sessions : List Session
  roomSess : String → List Nat
  slotSess : String → List Nat

/-- JS property read `sessions[i]` (always in range on real control paths). -/
def sessionAt (st : Sched) (i : Nat) : Session :=
  (st.sessions.get? i).getD defaultSession

/-- Replace session `i` in the state. -/
def setSession (st : Sched) (i : Nat) (s : Session) : Sched :=
  { st with sessions := st.sessions.set i s }

/-- `room.sessions.push(session)` (line 325). -/
def pushRoomSess (st : Sched) (rname : String) (i : Nat) : Sched :=
  { st with roomSess := fun n => if n = rname then st.roomSess n ++ [i] else st.roomSess n }

/-- `slot.sessions.push(session)` (line 329). -/
def pushSlotSess (st : Sched) (sname : String) (i : Nat) : Sched :=
  { st with slotSess := fun n => if n = sname then st.slotSess n ++ [i] else st.slotSess n }

/-- Stable insertion of `x` into a list ordered by the JS comparator `cmp`
(`x` goes after every element it does not strictly precede), the building
block of the model of `Array.prototype.sort`. -/
def insertCmp (cmp : α → α → Int) (x : α) : List α → List α
  | [] => [x]
  | y :: ys => if cmp x y < 0 then x :: y :: ys else y :: insertCmp cmp x ys

/-- Model of the (stable) JS `Array.prototype.sort` with comparator `cmp`. -/
def sortCmp (cmp : α → α → Int) (l : List α) : List α :=
  l.foldl (fun acc x => insertCmp cmp x acc) []

/-- `list?.includes(n)` on an optional list (`undefined?.includes` is
undefined, hence falsy). -/
def optIncludes (l : Option (List Nat)) (n : Nat) : Bool :=
  match l with
  | none => false
  | some l => l.contains n

/-- The chair-identity comparison of the `chairConflict` predicate
(line 292-294): `(c1.login && c1.login === c2.login) ||
(c1.name && c1.name === c2.name)`. -/
def chairsMatch (c1 c2 : Chair) : Bool :=
  (c1.login.isSome && c1.login == c2.login) || (c1.name.isSome && c1.name == c2.name)

/-- `potentialConflicts` (line 281-282): the sessions other than session `i`
whose current slot is `slotName`. -/
def occupantsExcept (st : Sched) (i : Nat) (slotName : String) : List Session :=
  ((st.sessions.enum.filter (fun p => p.1 ≠ i && p.2.slot == some slotName)).map (fun p => p.2))

/-- The `chairConflict` test of `nonConflictingSlot` (line 291-295). -/
def chairConflictExists (st : Sched) (i : Nat) (slotName : String) : Bool :=
  (occupantsExcept st i slotName).any (fun s =>
    s.chairs.any (fun c1 => (sessionAt st i).chairs.any (fun c2 => chairsMatch c1 c2)))

/-- `nonConflictingSlot` (line 280-319). -/
def nonConflictingSlot (st : Sched) (i : Nat) (c : Constraints) (slot : Slot) : Bool :=
  let session := sessionAt st i
  let pc := occupantsExcept st i slot.name
  let trackConflict := pc.any (fun s => s.tracks.any (fun t => session.tracks.contains t))
  if trackConflict && c.meetConflicts.contains .track then false
  else if chairConflictExists st i slot.name then false
  else if c.meetConflicts.contains .session &&
      pc.any (fun s => optIncludes session.description.conflicts s.number ||
                       optIncludes s.description.conflicts session.number) then false
  else if c.meetDuration &&
      ((c.strictDuration && slot.duration ≠ session.description.duration) ||
       (!c.strictDuration && slot.duration < session.description.duration)) then false
  else true

/-- The `byCapacity` comparator (line 229). -/
def byCapacity (r1 r2 : Room) : Int := (r1.capacity : Int) - (r2.capacity : Int)

/-- The `byCapacityDesc` comparator (line 230). -/
def byCapacityDesc (r1 r2 : Room) : Int := (r2.capacity : Int) - (r1.capacity : Int)

/-- `possibleRooms` construction of `setRoomAndSlot` (line 231-250). -/
def possibleRoomsFor (rooms : List Room) (st : Sched) (i : Nat) (c : Constraints) :
    List Room :=
  let session := sessionAt st i
  match session.room with
  | some rname => (rooms.find? (fun room => room.name == rname)).toList
  | none =>
    match c.trackRoom with
    | some tr => [tr]
    | none =>
      sortCmp byCapacity
          (rooms.filter (fun room => session.description.capacity ≤ room.capacity)) ++
        (if !c.meetCapacity then
          sortCmp byCapacityDesc
            (rooms.filter (fun room => room.capacity < session.description.capacity))
        else [])

/-- `possibleSlots` construction of `setRoomAndSlot` (line 256-278): the
preserved slot alone if the session has one; otherwise the slots not yet
occupied in `room`, load-sorted (occupancy count, then position) unless a
track room is in effect. -/
def possibleSlotsFor (slots : List Slot) (st : Sched) (i : Nat) (c : Constraints)
    (room : Room) : List Slot :=
  match (sessionAt st i).slot with
  | some sname => (slots.find? (fun slot => slot.name == sname)).toList
  | none =>
    let base := slots.filter (fun slot =>
      !((st.roomSess room.name).any (fun j => (sessionAt st j).slot == some slot.name)))
    if c.trackRoom.isSome then base
    else
      sortCmp (fun s1 s2 =>
        let s1len : Int := ((st.slotSess s1.name).length : Int)
        let s2len : Int := ((st.slotSess s2.name).length : Int)
        if s1len = s2len then (s1.pos : Int) - (s2.pos : Int) else s1len - s2len) base

/-- The commit step of `setRoomAndSlot` on success (line 322-331): fill in
whichever of room/slot is still empty and push the session onto the matching
occupancy view. -/
def commitAssign (st : Sched) (i : Nat) (room : Room) (slot : Slot) : Sched :=
  let session := sessionAt st i
  let st1 :=
    if session.room = none then
      pushRoomSess (setSession st i { session with room := some room.name }) room.name i
    else st
  let session1 := sessionAt st1 i
  if session1.slot = none then
    pushSlotSess (setSession st1 i { session1 with slot := some slot.name }) slot.name i
  else st1

/-- The room loop of `setRoomAndSlot` (line 256-333). -/
def tryRooms (slots : List Slot) (st : Sched) (i : Nat) (c : Constraints) :
    List Room → Option Sched
  | [] => none
  | room :: rest =>
    match (possibleSlotsFor slots st i c room).find? (nonConflictingSlot st i c) with
    | some slot => some (commitAssign st i room slot)
    | none => tryRooms slots st i c rest

/-- `setRoomAndSlot` (line 226-336): `some` of the updated state on success,
`none` on failure. -/
def setRoomAndSlot (rooms : List Room) (slots : List Slot) (st : Sched) (i : Nat)
    (c : Constraints) : Option Sched :=
  let pr := possibleRoomsFor rooms st i c
  if pr.isEmpty then none else tryRooms slots st i c pr

/-- One step of the constraint-relaxation ladder (the `else if` chain at
line 358-390): `none` when every relaxation is exhausted. -/
def relax (c : Constraints) : Option Constraints :=
  if c.strictDuration then some { c with strictDuration := false }
  else if c.trackRoom.isSome then some { c with trackRoom := none }
  else if c.meetDuration then some { c with meetDuration := false }
  else if c.meetCapacity then some { c with meetCapacity := false }
  else if c.meetConflicts.length = 2 then some { c with meetConflicts := [.track] }
  else if c.meetConflicts.head? = some .track then some { c with meetConflicts := [.session] }
  else if 0 < c.meetConflicts.length then some { c with meetConflicts := [] }
  else none

/-- The initial (full) constraint set built per session (line 351-357). -/
def initConstraints (tr : Option Room) : Constraints :=
  { trackRoom := tr, strictDuration := true, meetDuration := true,
    meetCapacity := true, meetConflicts := [.session, .track] }

/-- Result of one session's search: the final state, the constraint sets
attempted in order, and the level at which the search succeeded (if any) —
the attempts list mirrors the relaxation warnings logged by the source. -/
structure SearchOutcome where
  state : Sched
  attempts : List Constraints
  success : Option Constraints

/-- The per-session `while (!setRoomAndSlot(...))` relaxation loop
(line 358-391), fuelled; fuel 8 covers the longest possible ladder. -/
def searchFuel (rooms : List Room) (slots : List Slot) :
    Nat → Sched → Nat → Constraints → SearchOutcome
  | 0, st, _, _ => { state := st, attempts := [], success := none }
  | fuel + 1, st, i, c =>
    match setRoomAndSlot rooms slots st i c with
    | some st' => { state := st', attempts := [c], success := some c }
    | none =>
      match relax c with
      | some c' =>
        let o := searchFuel rooms slots fuel st i c'
        { o with attempts := c :: o.attempts }
      | none => { state := st, attempts := [c], success := none }

/-- The full search for one session, starting from the full constraint set. -/
def searchSession (rooms : List Room) (slots : List Slot) (st : Sched) (i : Nat)
    (tr : Option Room) : SearchOutcome :=
  searchFuel rooms slots 8 st i (initConstraints tr)

/-- `selectNextSession` (line 178-185), selection part: index of the first
unprocessed session belonging to `track` (any session for the main track). -/
def selectNextSession (st : Sched) (track : String) : Option Nat :=
  (st.sessions.enum.find? (fun p =>
    !p.2.processed && (track == "" || p.2.tracks.contains track))).map (fun p => p.1)

/-- The `session.processed = true` marking of `selectNextSession`. -/
def markProcessed (st : Sched) (i : Nat) : Sched :=
  setSession st i { sessionAt st i with processed := true }

/-- Result of a whole run (or of one track's loop): final state plus, per
processed session in order, its index, the constraint sets attempted and the
success level — the observable log of the run. -/
structure RunResult where
  state : Sched
  log : List (Nat × List Constraints × Option Constraints)

/-- The per-track `while (session)` loop (line 349-396), fuelled by the
session count. -/
def runTrackFuel (rooms : List Room) (slots : List Slot) :
    Nat → Sched → String → Option Room → RunResult
  | 0, st, _, _ => { state := st, log := [] }
  | fuel + 1, st, track, tr =>
    match selectNextSession st track with
    | none => { state := st, log := [] }
    | some i =>
      let o := searchSession rooms slots (markProcessed st i) i tr
      let rest := runTrackFuel rooms slots fuel o.state track tr
      { state := rest.state, log := (i, o.attempts, o.success) :: rest.log }

/-- Insert a track label into the ordered track set if new (JS `Set.add`). -/
def insertIfNew (l : List String) (t : String) : List String :=
  if l.contains t then l else l ++ [t]

/-- The track set (insertion-ordered, line 154-165): every track label in
order of first appearance, with the main track `""` added last. -/
def collectTracks (sessions : List Session) : List String :=
  insertIfNew (sessions.foldl (fun acc s => s.tracks.foldl insertIfNew acc) []) ""

/-- `slotsTaken` (line 200-202): the room's load counted for `chooseTrackRoom`.
Note the source reads `curr.track`, a property that is never assigned
(sessions only carry `tracks`), so the `curr.track === track` exclusion can
never trigger on real data. -/
def slotsTaken (st : Sched) (track : String) (room : Room) : Nat :=
  (st.roomSess room.name).foldl
    (fun total j => if (sessionAt st j).track = some track then total else total + 1) 0

/-- Modelled from the spec: the load metric `chooseTrackRoom` is described to
use — the number of sessions already placed in the room *excluding the
sessions of the track itself* ("load excluding this track's own prior
placements").  Kept separate from `slotsTaken`, the metric the code computes. -/
def specSlotsTaken (st : Sched) (track : String) (room : Room) : Nat :=
  ((st.roomSess room.name).filter (fun j => !((sessionAt st j).tracks.contains track))).length

/-- `chooseTrackRoom` (line 187-223). -/
def chooseTrackRoom (rooms : List Room) (slots : List Slot) (st : Sched)
    (track : String) : Option Room :=
  if track = "" then none
  else
    let trackSessions := st.sessions.filter (fun s => s.tracks.contains track)
    let largestSession := trackSessions.foldl
      (fun smax scurr =>
        if smax.description.capacity < scurr.description.capacity then scurr else smax)
      (trackSessions.headD defaultSession)
    let byAvailability : Room → Room → Int := fun r1 r2 =>
      (slotsTaken st track r1 : Int) - (slotsTaken st track r2 : Int)
    let meetCapacity : Room → Bool := fun room =>
      largestSession.description.capacity ≤ room.capacity
    let meetSameRoom : Room → Bool := fun room =>
      slotsTaken st track room + trackSessions.length ≤ slots.length
    let meetAll : Room → Bool := fun room => meetCapacity room && meetSameRoom room
    let requestedNames := trackSessions.foldl
      (fun acc s => match s.room with | some r => insertIfNew acc r | none => acc) []
    let requestedRooms := requestedNames.filterMap
      (fun n => rooms.find? (fun room => room.name == n))
    let allRooms := sortCmp byAvailability requestedRooms ++
      sortCmp byAvailability (rooms.filter (fun room => !(requestedRooms.contains room)))
    (((allRooms.find? meetAll).orElse
      (fun _ => allRooms.find? meetCapacity)).orElse
      (fun _ => allRooms.find? meetSameRoom)).orElse
      (fun _ => allRooms.head?)

/-- The run over all tracks (line 341-403): for each track in turn, choose
its home room and run the per-track session loop. -/
def runEngine (rooms : List Room) (slots : List Slot) (st : Sched) : RunResult :=
  (collectTracks st.sessions).foldl
    (fun acc track =>
      let r := runTrackFuel rooms slots acc.state.sessions.length acc.state track
        (chooseTrackRoom rooms slots acc.state track)
      { state := r.state, log := acc.log ++ r.log })
    { state := st, log := [] }

/-! ## Normalization before the engine runs (line 103-175) -/

/-- The resolved preserve directive as it reaches `main`: `all`, or an
explicit id list (`none` on the command line becomes the empty list). -/
inductive PreserveArg where
  | all
  | ids (l : List Nat)
deriving DecidableEq

/-- Default-capacity normalization (line 103-107): a capacity of 0 becomes 30. -/
def normalizeCapacity (s : Session) : Session :=
  if s.description.capacity = 0 then
    { s with description := { s.description with capacity := 30 } }
  else s

/-- Resolution of `preserve` to a list of session numbers (line 138-146):
for `all`, the numbers of every session that already has a slot or room. -/
def resolvePreserve (sessions : List Session) : PreserveArg → List Nat
  | .all => (sessions.filter (fun s => s.slot.isSome || s.room.isSome)).map (fun s => s.number)
  | .ids l => l

/-- The value of the JS read `s.number` when `s` is already a number (the
elements of `preserve` are numbers after line 138-140): such a property read
yields `undefined`. -/
def numberProp (_ : Nat) : Option Nat := none

/-- `array.includes(x)` where `x` may be `undefined`. -/
def jsIncludesOpt (l : List Nat) : Option Nat → Bool
  | none => false
  | some n => l.contains n

/-- The except filter (line 141-143):
`preserve = preserve.filter(s => !except.includes(s.number))` — note it reads
`s.number` off the *numbers* stored in `preserve`. -/
def applyExcept (preserve : List Nat) (except : Option (List Nat)) : List Nat :=
  match except with
  | none => preserve
  | some ex => preserve.filter (fun s => !(jsIncludesOpt ex (numberProp s)))

/-- Clearing of non-preserved assignments (line 147-152). -/
def clearNonPreserved (preserve : List Nat) (s : Session) : Session :=
  if preserve.contains s.number then s else { s with slot := none, room := none }

/-- `String.startsWith`, spelled on the character lists (kernel-reducible). -/
def strStartsWith (s pre : String) : Bool :=
  pre.data.isPrefixOf s.data

/-- `String.substring`/`drop`, spelled on the character lists. -/
def strDrop (s : String) (n : Nat) : String :=
  ⟨s.data.drop n⟩

/-- Track-membership derivation from the labels (line 156-163). -/
def trackOfLabel (label : String) : Option String :=
  if strStartsWith label "track: " then some (strDrop label 7) else none

/-- The whole normalization pipeline before the engine runs (line 103-175):
capacity defaulting, preserve/except resolution, clearing of non-preserved
assignments, track derivation, and the initial occupancy views.  Returns the
engine-start state together with the resolved preserve list. -/
def prepare (sessions : List Session) (parg : PreserveArg) (except : Option (List Nat)) :
    Sched × List Nat :=
  let sessions := sessions.map normalizeCapacity
  let preserve := applyExcept (resolvePreserve sessions parg) except
  let sessions := sessions.map (clearNonPreserved preserve)
  let sessions := sessions.map (fun s =>
    { s with tracks := s.labels.filterMap trackOfLabel, track := none,
             processed := false, updated := false })
  ({ sessions := sessions,
     roomSess := fun rname =>
       (sessions.enum.filter (fun p => p.2.room == some rname)).map (fun p => p.1),
     slotSess := fun sname =>
       (sessions.enum.filter (fun p => p.2.slot == some sname)).map (fun p => p.1) },
   preserve)

/-- The apply-phase selection (line 585):
`sessions.filter(s => s.updated)`. -/
def sessionsToUpdate (st : Sched) : List Session :=
  st.sessions.filter (fun s => s.updated)

/-! ## Shuffle and seed (line 53-69, 94-112) -/

/-- One index swap of the in-place Fisher-Yates shuffle. -/
def swapAt (l : List α) (i j : Nat) : List α :=
  match l.get? i, l.get? j with
  | some a, some b => (l.set i b).set j a
  | _, _ => l

/-- The shuffle loop (line 55-58), `i` running down to 1; `draw i` models the
value `Math.floor(randomGenerator.quick() * (i + 1))` of iteration `i`,
reduced mod `i + 1` as the source guarantees. -/
def shuffleFrom (draw : Nat → Nat) (l : List α) : Nat → List α
  | 0 => l
  | i + 1 => shuffleFrom draw (swapAt l (i + 1) (draw (i + 1) % (i + 2))) i

/-- `shuffle` (line 53-59): seeded in-place permutation. -/
def shuffle (draw : Nat → Nat) (l : List α) : List α :=
  shuffleFrom draw l (l.length - 1)

/-- The fixed seed alphabet of `makeseed` (line 65). -/
def makeseedChars : List Char := "abcdefghijklmnopqrstuvwxyz".data

/-- `makeseed` (line 64-69): five characters drawn from the fixed alphabet;
`draws k` models the `Math.random()` value of position `k`, scaled. -/
def makeseed (draws : Nat → Nat) : String :=
  ⟨[1, 2, 3, 4, 5].map (fun k => makeseedChars.getD (draws k % 26) 'a')⟩

/-- The comparator of `sessions.sort((s1, s2) => s1.number - s2.number)`
(line 95). -/
def byNumber (s1 s2 : Session) : Int := (s1.number : Int) - (s2.number : Int)

/-- The shuffle-then-default-seed portion of `main` (line 95-112): sessions
are sorted by number and shuffled with the seed **argument** (line 97);
only afterwards is a missing seed replaced by a generated one (line 112).
`prng seedArg` is the stream of scaled draws `seedrandom(seed).quick()`
produces for that seed argument (`none` = `seedrandom(undefined)`, which
self-seeds from entropy); `entropy` models the `Math.random()` draws of
`makeseed`.  Returns the shuffled order and the seed reported to the user. -/
def suggestGridShuffle (prng : Option String → Nat → Nat) (entropy : Nat → Nat)
    (seedArg : Option String) (sessions : List Session) : List Session × String :=
  (shuffle (prng seedArg) (sortCmp byNumber sessions),
   seedArg.getD (makeseed entropy))

/-! ## Command-line argument parsing (line 595-623) -/

/-- Outcome of parsing one directive argument: a usage error (`process.exit`),
a thrown `TypeError`, or a parsed value. -/
inductive ArgOutcome (α : Type) where
  | usage
  | crash
  | ok (a : α)
deriving DecidableEq

/-- Whether `/^all|none|\d+(,\d+)*$/` matches somewhere in `s` (the regex is
what line 598 tests; the alternation binds loosest, so the three alternatives
are anchored independently).  The third alternative `\d+(,\d+)*$` has a match
in `s` iff the last character of `s` is a digit: such a match must end at the
end of the string with a digit, and conversely a final digit alone matches. -/
def matchesPreserveRegex (s : String) : Bool :=
  strStartsWith s "all" ||
  (List.range (s.data.length + 1)).any (fun i => "none".data.isPrefixOf (s.data.drop i)) ||
  (match s.data.getLast? with | some ch => ch.isDigit | none => false)

/-- Whether `/^none|\d+(,\d+)*$/` (line 616) matches somewhere in `s`. -/
def matchesExceptRegex (s : String) : Bool :=
  (List.range (s.data.length + 1)).any (fun i => "none".data.isPrefixOf (s.data.drop i)) ||
  (match s.data.getLast? with | some ch => ch.isDigit | none => false)

/-- Parsing of the first (preserve) argument (line 597-611).  For an argument
that is neither `all` nor `none` the source runs
`process.argv[2].map(n => parseInt(n, 10))` — but `argv[2]` is a string and
strings have no `map` method, so this throws a `TypeError`. -/
def parsePreserveArg (s : String) : ArgOutcome PreserveArg :=
  if !matchesPreserveRegex s then .usage
  else if s = "all" then .ok .all
  else if s = "none" then .ok (.ids [])
  else .crash

/-- Parsing of the second (except) argument (line 614-623); the list case
likewise calls `.map` on a string and throws. -/
def parseExceptArg (s : String) : ArgOutcome (Option (List Nat)) :=
  if !matchesExceptRegex s then .usage
  else if s = "none" then .ok none
  else .crash

/-- The session record at position `i` of the raw (load-time) session list. -/
def rawAt (raw : List Session) (i : Nat) : Session :=
  (raw.get? i).getD defaultSession

/-! ## The relaxation ladders, written out -/

/-- The exact sequence of constraint sets the relaxation loop walks through
when a track home room `r` is in effect: strict→loose duration, drop the
track room, drop duration, drop capacity, then conflict levels
{session,track} → {track} → {session} → {}. -/
def ladder (r : Room) : List Constraints :=
  [{ trackRoom := some r, strictDuration := true, meetDuration := true,
     meetCapacity := true, meetConflicts := [.session, .track] },
   { trackRoom := some r, strictDuration := false, meetDuration := true,
     meetCapacity := true, meetConflicts := [.session, .track] },
   { trackRoom := none, strictDuration := false, meetDuration := true,
     meetCapacity := true, meetConflicts := [.session, .track] },
   { trackRoom := none, strictDuration := false, meetDuration := false,
     meetCapacity := true, meetConflicts := [.session, .track] },
   { trackRoom := none, strictDuration := false, meetDuration := false,
     meetCapacity := false, meetConflicts := [.session, .track] },
   { trackRoom := none, strictDuration := false, meetDuration := false,
     meetCapacity := false, meetConflicts := [.track] },
   { trackRoom := none, strictDuration := false, meetDuration := false,
     meetCapacity := false, meetConflicts := [.session] },
   { trackRoom := none, strictDuration := false, meetDuration := false,
     meetCapacity := false, meetConflicts := [] }]

/-- The ladder for a session of the main track (no track room to drop):
the same sequence with the track-room step skipped. -/
def mainLadder : List Constraints :=
  [{ trackRoom := none, strictDuration := true, meetDuration := true,
     meetCapacity := true, meetConflicts := [.session, .track] },
   { trackRoom := none, strictDuration := false, meetDuration := true,
     meetCapacity := true, meetConflicts := [.session, .track] },
   { trackRoom := none, strictDuration := false, meetDuration := false,
     meetCapacity := true, meetConflicts := [.session, .track] },
   { trackRoom := none, strictDuration := false, meetDuration := false,
     meetCapacity := false, meetConflicts := [.session, .track] },
   { trackRoom := none, strictDuration := false, meetDuration := false,
     meetCapacity := false, meetConflicts := [.track] },
   { trackRoom := none, strictDuration := false, meetDuration := false,
     meetCapacity := false, meetConflicts := [.session] },
   { trackRoom := none, strictDuration := false, meetDuration := false,
     meetCapacity := false, meetConflicts := [] }]

/-! ## Run invariants -/

/-- Occupancy-view soundness: a session whose `room` field is set appears in
that room's occupancy view.  Established by `prepare` and maintained by every
commit. -/
def ViewOK (st : Sched) : Prop :=
  ∀ k r, (sessionAt st k).room = some r → k ∈ st.roomSess r

/-- A session holding a slot either held one at engine start or also holds a
room: the engine only ever hands out a slot together with a room. -/
def SlotOrigin (st0 st : Sched) : Prop :=
  ∀ k, (sessionAt st k).slot ≠ none →
    (sessionAt st0 k).slot ≠ none ∨ (sessionAt st k).room ≠ none

/-- Two distinct sessions sharing a (room, slot) pair can only happen when at
least one of them entered the engine with a pre-set slot. -/
def NoDouble (st0 st : Sched) : Prop :=
  ∀ k l r t, k ≠ l →
    (sessionAt st k).room = some r → (sessionAt st l).room = some r →
    (sessionAt st k).slot = some t → (sessionAt st l).slot = some t →
    (sessionAt st0 k).slot ≠ none ∨ (sessionAt st0 l).slot ≠ none

/-- The conjunction of the run invariants, relative to the engine-start
state `st0`. -/
def EngineInv (st0 st : Sched) : Prop :=
  ViewOK st ∧ SlotOrigin st0 st ∧ NoDouble st0 st

/-- All `updated` flags are clear (the state the whole run in fact stays in,
since nothing ever sets the flag). -/
def NoUpdated (st : Sched) : Prop :=
  ∀ k, (sessionAt st k).updated = false

/-! ## Concrete scenarios used by witnesses, counterexamples and bug
evaluations -/

/-- Shorthand session constructor for the concrete scenarios. -/
def mkSession (n : Nat) (cap dur : Nat) (room slot : Option String := none)
    (labels : List String := []) (chairs : List Chair := [])
    (conflicts : Option (List Nat) := none) : Session :=
  { number := n, labels := labels, chairs := chairs,
    description := { capacity := cap, duration := dur, conflicts := conflicts },
    room := room, slot := slot, tracks := [], track := none,
    processed := false, updated := false }

/-- C1 counterexample: two sessions, both with preserved room+slot in the
same slot, sharing a chair login — every search level fails on the chair
conflict, yet both stay scheduled. -/
def rawC1 : List Session :=
  [mkSession 1 30 60 (some "RA") (some "T") [] [⟨some "x", none⟩],
   mkSession 2 30 60 (some "RB") (some "T") [] [⟨some "x", none⟩]]

def roomsC1 : List Room := [⟨"RA", 50⟩, ⟨"RB", 50⟩]

def slotsC1 : List Slot := [⟨"T", 60, 0⟩]

def runC1 : RunResult := runEngine roomsC1 slotsC1 (prepare rawC1 .all none).1

/-- C1 witness scenario: one fresh session, one room, no slots — the search
fails at every level of the full ladder. -/
def stC1w : Sched := (prepare [mkSession 1 30 60] (.ids []) none).1

/-- C2 counterexample: a session with a preserved room of capacity 10 and a
capacity preference of 40 is placed at the full constraint set. -/
def rawC2 : List Session := [mkSession 1 40 60 (some "R")]

def roomsC2 : List Room := [⟨"R", 10⟩]

def slotsC2 : List Slot := [⟨"T", 60, 0⟩]

def runC2 : RunResult := runEngine roomsC2 slotsC2 (prepare rawC2 .all none).1

/-- C2 witness scenario: a fresh session of capacity 30 with a too-small and
a big-enough room on offer. -/
def roomsC2w : List Room := [⟨"S", 10⟩, ⟨"B", 50⟩]

def stC2w : Sched := (prepare [mkSession 1 30 60] (.ids []) none).1

/-- C3 scenario: the occupant's chair and the candidate's chair both have
logins (different ones) but share a display name. -/
def rawC3 : List Session :=
  [mkSession 1 30 60 (some "RA") (some "T") [] [⟨some "alice", some "X"⟩],
   mkSession 2 30 60 none none [] [⟨some "bob", some "X"⟩]]

def stC3 : Sched := (prepare rawC3 .all none).1

/-- Modelled from the claim/spec wording of the chair-identity rule:
two chairs are the same identity "by comparing their logins when both have a
login, and by comparing their names only otherwise". -/
def specChairIdentityShared (c1 c2 : Chair) : Bool :=
  if c1.login.isSome && c2.login.isSome then c1.login == c2.login
  else c1.name.isSome && c2.name.isSome && c1.name == c2.name

/-- C4 scenario: track `t` has one session already placed in requested room
R1 and one still to place; two rooms, two slots. -/
def rawC4 : List Session :=
  [mkSession 1 10 60 (some "R1") (some "T1") ["track: t"],
   mkSession 2 10 60 none none ["track: t"]]

def roomsC4 : List Room := [⟨"R1", 10⟩, ⟨"R2", 10⟩]

def slotsC4 : List Slot := [⟨"T1", 60, 0⟩, ⟨"T2", 60, 1⟩]

def stC4 : Sched := (prepare rawC4 .all none).1

/-- C5 scenario: one session, number 42, with assigned room and slot;
preserve "all" with except list [42]. -/
def rawC5 : List Session := [mkSession 42 30 60 (some "R") (some "T")]

/-- C6 scenario: a single fresh session that the run assigns to a room and
slot. -/
def rawC6 : List Session := [mkSession 1 30 60]

def roomsC6 : List Room := [⟨"R", 50⟩]

def slotsC6 : List Slot := [⟨"T1", 60, 0⟩, ⟨"T2", 60, 1⟩]

def runC6 : RunResult := runEngine roomsC6 slotsC6 (prepare rawC6 (.ids []) none).1

/-- C7 scenario: a pseudo-random generator model whose draws differ between
the self-seeded (`none`) stream and every string-seeded stream. -/
def prngC7 : Option String → Nat → Nat :=
  fun seedArg _ => match seedArg with | none => 0 | some _ => 1

/-- C7 scenario: the `Math.random()` draws behind `makeseed`. -/
def entropyC7 : Nat → Nat := fun _ => 0

def sessionsC7 : List Session := [mkSession 1 30 60, mkSession 2 30 60]

/-- C10 counter-scenario for the preserved-slot caveat: session 2 fresh
(processed first), session 1 with a preserved slot but no room. -/
def rawC10x : List Session := [mkSession 2 30 60, mkSession 1 30 60 none (some "T1")]

def roomsC10 : List Room := [⟨"R", 50⟩]

def slotsC10x : List Slot := [⟨"T1", 60, 0⟩]

def prepC10x : Sched := (prepare rawC10x .all none).1

def runC10x : RunResult := runEngine roomsC10 slotsC10x prepC10x

/-- C10 witness scenario: two fresh sessions, one room, two slots. -/
def rawC10w : List Session := [mkSession 1 30 60, mkSession 2 30 60]

def slotsC10w : List Slot := [⟨"T1", 60, 0⟩, ⟨"T2", 60, 1⟩]

def prepC10w : Sched := (prepare rawC10w (.ids []) none).1

/-- C9 witness scenario: session 7 with preserved room and slot plus a fresh
session competing for the same room. -/
def rawC9w : List Session :=
  [mkSession 7 30 60 (some "R") (some "T1"), mkSession 8 30 60]

def prepC9w : Sched × List Nat := prepare rawC9w .all none

/-- Assignments already made survive into the later state: whatever room or
slot a session holds in `st`, it still holds in `st'`.  Every engine step
preserves this relation, which is what C9 calls "the engine only fills in
assignment fields that are empty". -/
def PreservesAssigned (st st' : Sched) : Prop :=
  ∀ k v, ((sessionAt st k).room = some v → (sessionAt st' k).room = some v) ∧
         ((sessionAt st k).slot = some v → (sessionAt st' k).slot = some v)

/-! ## Basic state lemmas -/

theorem pushRoomSess_sessions (st : Sched) (r : String) (i : Nat) :
    (pushRoomSess st r i).sessions = st.sessions := rfl

theorem pushSlotSess_sessions (st : Sched) (r : String) (i : Nat) :
    (pushSlotSess st r i).sessions = st.sessions := rfl

theorem length_setSession (st : Sched) (i : Nat) (s : Session) :
    (setSession st i s).sessions.length = st.sessions.length := by
  simp [setSession]

theorem sessionAt_setSession_self (st : Sched) (i : Nat) (s : Session)
    (h : i < st.sessions.length) : sessionAt (setSession st i s) i = s := by
  simp [sessionAt, setSession, h]

theorem sessionAt_setSession_ne (st : Sched) (i j : Nat) (s : Session)
    (h : i ≠ j) : sessionAt (setSession st i s) j = sessionAt st j := by
  simp [sessionAt, setSession, h]

theorem setSession_sessions_of_le (st : Sched) (i : Nat) (s : Session)
    (h : st.sessions.length ≤ i) : (setSession st i s).sessions = st.sessions := by
  simp [setSession, List.set_eq_of_length_le h]

theorem sessionAt_pushRoomSess (st : Sched) (r : String) (i j : Nat) :
    sessionAt (pushRoomSess st r i) j = sessionAt st j := rfl

theorem sessionAt_pushSlotSess (st : Sched) (r : String) (i j : Nat) :
    sessionAt (pushSlotSess st r i) j = sessionAt st j := rfl

theorem mem_pushRoomSess_of_mem (st : Sched) (r n : String) (i k : Nat)
    (h : k ∈ st.roomSess n) : k ∈ (pushRoomSess st r i).roomSess n := by
  simp only [pushRoomSess]
  by_cases hn : n = r
  · subst hn
    simp only [if_pos rfl]
    exact List.mem_append_left _ h
  · simp [hn, h]

theorem self_mem_pushRoomSess (st : Sched) (r : String) (i : Nat) :
    i ∈ (pushRoomSess st r i).roomSess r := by
  simp [pushRoomSess]

theorem roomSess_pushSlotSess (st : Sched) (s : String) (i : Nat) :
    (pushSlotSess st s i).roomSess = st.roomSess := rfl

theorem roomSess_setSession (st : Sched) (i : Nat) (s : Session) :
    (setSession st i s).roomSess = st.roomSess := rfl

/-! ## Sort membership -/

theorem mem_insertCmp (cmp : α → α → Int) (y : α) (l : List α) (x : α) :
    x ∈ insertCmp cmp y l ↔ x = y ∨ x ∈ l := by
  induction l with
  | nil => simp [insertCmp]
  | cons z zs ih =>
    simp only [insertCmp]
    by_cases h : cmp y z < 0
    · simp [h]
    · simp only [h, if_false, List.mem_cons, ih]
      tauto

theorem mem_sortCmp (cmp : α → α → Int) (l : List α) (x : α) :
    x ∈ sortCmp cmp l ↔ x ∈ l := by
  suffices h : ∀ acc : List α,
      x ∈ l.foldl (fun acc x => insertCmp cmp x acc) acc ↔ x ∈ acc ∨ x ∈ l by
    simpa [sortCmp] using h []
  induction l with
  | nil => simp
  | cons z zs ih =>
    intro acc
    simp only [List.foldl_cons, ih, mem_insertCmp, List.mem_cons]
    tauto

/-! ## Commit characterization -/

theorem commitAssign_sessionAt_ne (st : Sched) (i : Nat) (room : Room) (slot : Slot)
    (j : Nat) (h : j ≠ i) :
    sessionAt (commitAssign st i room slot) j = sessionAt st j := by
  unfold commitAssign
  by_cases h1 : (sessionAt st i).room = none <;>
    simp only [h1, if_true, if_false, ite_true, ite_false] <;>
  · split <;>
    simp [sessionAt_pushRoomSess, sessionAt_pushSlotSess,
      sessionAt_setSession_ne _ _ _ _ (Ne.symm h)]

theorem commitAssign_sessionAt_self (st : Sched) (i : Nat) (room : Room) (slot : Slot)
    (h : i < st.sessions.length) :
    sessionAt (commitAssign st i room slot) i =
      { sessionAt st i with
        room := if (sessionAt st i).room = none then some room.name
                else (sessionAt st i).room,
        slot := if (sessionAt st i).slot = none then some slot.name
                else (sessionAt st i).slot } := by
  unfold commitAssign
  by_cases h1 : (sessionAt st i).room = none <;>
    by_cases h2 : (sessionAt st i).slot = none <;>
  simp [h1, h2, sessionAt_pushRoomSess, sessionAt_pushSlotSess,
    sessionAt_setSession_self, pushRoomSess_sessions, pushSlotSess_sessions,
    length_setSession, h]

theorem commitAssign_sessions_of_le (st : Sched) (i : Nat) (room : Room) (slot : Slot)
    (h : st.sessions.length ≤ i) :
    (commitAssign st i room slot).sessions = st.sessions := by
  unfold commitAssign
  by_cases h1 : (sessionAt st i).room = none <;>
    simp only [h1, ite_true, ite_false] <;>
  split <;>
  simp [pushRoomSess_sessions, pushSlotSess_sessions, setSession,
    List.set_eq_of_length_le, h]

theorem commitAssign_length (st : Sched) (i : Nat) (room : Room) (slot : Slot) :
    (commitAssign st i room slot).sessions.length = st.sessions.length := by
  unfold commitAssign
  by_cases h1 : (sessionAt st i).room = none <;>
    simp only [h1, if_true, if_false, ite_true, ite_false] <;>
  · split <;>
    simp [pushRoomSess_sessions, pushSlotSess_sessions, setSession]

theorem commitAssign_mem_roomSess (st : Sched) (i : Nat) (room : Room) (slot : Slot)
    (n : String) (k : Nat) (h : k ∈ st.roomSess n) :
    k ∈ (commitAssign st i room slot).roomSess n := by
  unfold commitAssign
  by_cases h1 : (sessionAt st i).room = none <;>
    simp only [h1, if_true, if_false, ite_true, ite_false] <;>
  · split <;>
    first
      | exact h
      | (simp only [pushSlotSess, roomSess_setSession]
         exact mem_pushRoomSess_of_mem _ _ _ _ _ h)
      | exact mem_pushRoomSess_of_mem _ _ _ _ _ h

theorem commitAssign_self_mem_roomSess (st : Sched) (i : Nat) (room : Room) (slot : Slot)
    (h1 : (sessionAt st i).room = none) :
    i ∈ (commitAssign st i room slot).roomSess room.name := by
  unfold commitAssign
  simp only [h1, if_true, ite_true]
  split
  · exact self_mem_pushRoomSess _ _ _
  · exact self_mem_pushRoomSess _ _ _

/-! ## Search characterization -/

theorem tryRooms_eq_some (slots : List Slot) (st : Sched) (i : Nat) (c : Constraints) :
    ∀ (prs : List Room) (st' : Sched), tryRooms slots st i c prs = some st' →
    ∃ room ∈ prs, ∃ slot,
      (possibleSlotsFor slots st i c room).find? (nonConflictingSlot st i c) = some slot ∧
      st' = commitAssign st i room slot := by
  intro prs
  induction prs with
  | nil => intro st' h; exact absurd h (by simp [tryRooms])
  | cons room rest ih =>
    intro st' h
    rw [tryRooms] at h
    cases hf : (possibleSlotsFor slots st i c room).find? (nonConflictingSlot st i c) with
    | some slot =>
      rw [hf] at h
      refine ⟨room, List.mem_cons_self _ _, slot, hf, ?_⟩
      exact (Option.some_inj.mp h).symm
    | none =>
      rw [hf] at h
      obtain ⟨room', hm, slot, hf', he⟩ := ih st' h
      exact ⟨room', List.mem_cons_of_mem _ hm, slot, hf', he⟩

theorem setRoomAndSlot_eq_some (rooms : List Room) (slots : List Slot) (st : Sched)
    (i : Nat) (c : Constraints) (st' : Sched)
    (h : setRoomAndSlot rooms slots st i c = some st') :
    ∃ room ∈ possibleRoomsFor rooms st i c, ∃ slot,
      (possibleSlotsFor slots st i c room).find? (nonConflictingSlot st i c) = some slot ∧
      st' = commitAssign st i room slot := by
  unfold setRoomAndSlot at h
  by_cases he : (possibleRoomsFor rooms st i c).isEmpty
  · rw [if_pos he] at h
    exact absurd h (by simp)
  · rw [if_neg he] at h
    exact tryRooms_eq_some slots st i c _ st' h

theorem possibleSlots_fresh (slots : List Slot) (st : Sched) (i : Nat) (c : Constraints)
    (room : Room) (slot : Slot)
    (hslot0 : (sessionAt st i).slot = none)
    (hmem : slot ∈ possibleSlotsFor slots st i c room) :
    ∀ j ∈ st.roomSess room.name, ¬((sessionAt st j).slot = some slot.name) := by
  have hbase : slot ∈ slots.filter (fun sl =>
      !((st.roomSess room.name).any (fun j => (sessionAt st j).slot == some sl.name))) := by
    simp only [possibleSlotsFor, hslot0] at hmem
    by_cases ht : c.trackRoom.isSome
    · simpa [ht] using hmem
    · rw [if_neg ht] at hmem
      exact (mem_sortCmp _ _ _).mp hmem
  have hpred := (List.mem_filter.mp hbase).2
  intro j hj hcontra
  simp only [Bool.not_eq_true', List.any_eq_false] at hpred
  exact absurd (by simpa using hcontra) (by simpa using hpred j hj)

theorem possibleRooms_preset (rooms : List Room) (st : Sched) (i : Nat) (c : Constraints)
    (room : Room) (rname : String)
    (h0 : (sessionAt st i).room = some rname)
    (hmem : room ∈ possibleRoomsFor rooms st i c) :
    room.name = rname := by
  simp only [possibleRoomsFor, h0] at hmem
  cases hf : rooms.find? (fun r => r.name == rname) with
  | none => rw [hf] at hmem; simp at hmem
  | some r =>
    rw [hf] at hmem
    simp only [Option.toList_some, List.mem_singleton] at hmem
    subst hmem
    simpa using List.find?_some hf

theorem possibleRooms_capacity (rooms : List Room) (st : Sched) (i : Nat) (c : Constraints)
    (room : Room)
    (h0 : (sessionAt st i).room = none) (ht : c.trackRoom = none)
    (hc : c.meetCapacity = true)
    (hmem : room ∈ possibleRoomsFor rooms st i c) :
    room ∈ rooms ∧ (sessionAt st i).description.capacity ≤ room.capacity := by
  simp only [possibleRoomsFor, h0, ht, hc] at hmem
  simp [mem_sortCmp, List.mem_filter] at hmem
  exact ⟨hmem.1, hmem.2⟩

theorem searchFuel_state (rooms : List Room) (slots : List Slot) :
    ∀ (fuel : Nat) (st : Sched) (i : Nat) (c : Constraints),
    (searchFuel rooms slots fuel st i c).state = st ∨
    ∃ c', setRoomAndSlot rooms slots st i c' =
      some (searchFuel rooms slots fuel st i c).state := by
  intro fuel
  induction fuel with
  | zero => intro st i c; exact Or.inl rfl
  | succ fuel ih =>
    intro st i c
    cases hs : setRoomAndSlot rooms slots st i c with
    | some st' =>
      right
      exact ⟨c, by simp [searchFuel, hs]⟩
    | none =>
      cases hr : relax c with
      | some c' =>
        have := ih st i c'
        simpa [searchFuel, hs, hr] using this
      | none =>
        left
        simp [searchFuel, hs, hr]

theorem searchFuel_success (rooms : List Room) (slots : List Slot) :
    ∀ (fuel : Nat) (st : Sched) (i : Nat) (c c' : Constraints),
    (searchFuel rooms slots fuel st i c).success = some c' →
    setRoomAndSlot rooms slots st i c' =
      some (searchFuel rooms slots fuel st i c).state := by
  intro fuel
  induction fuel with
  | zero => intro st i c c' h; exact absurd h (by simp [searchFuel])
  | succ fuel ih =>
    intro st i c c' h
    cases hs : setRoomAndSlot rooms slots st i c with
    | some st' =>
      simp only [searchFuel, hs] at h ⊢
      injection h with h
      subst h
      exact hs
    | none =>
      cases hr : relax c with
      | some c'' =>
        simp only [searchFuel, hs, hr] at h ⊢
        exact ih st i c'' c' h
      | none =>
        simp [searchFuel, hs, hr] at h

theorem searchFuel_fail_state (rooms : List Room) (slots : List Slot) :
    ∀ (fuel : Nat) (st : Sched) (i : Nat) (c : Constraints),
    (searchFuel rooms slots fuel st i c).success = none →
    (searchFuel rooms slots fuel st i c).state = st := by
  intro fuel
  induction fuel with
  | zero => intro st i c _; rfl
  | succ fuel ih =>
    intro st i c h
    cases hs : setRoomAndSlot rooms slots st i c with
    | some st' => simp [searchFuel, hs] at h
    | none =>
      cases hr : relax c with
      | some c' =>
        simp only [searchFuel, hs, hr] at h ⊢
        exact ih st i c' h
      | none => simp [searchFuel, hs, hr]

/-! ## Misc state helpers -/

theorem sessionAt_congr (st st' : Sched) (h : st'.sessions = st.sessions) (k : Nat) :
    sessionAt st' k = sessionAt st k := by
  simp [sessionAt, h]

theorem sessionAt_markProcessed (st : Sched) (i k : Nat) :
    sessionAt (markProcessed st i) k = sessionAt st k ∨
    sessionAt (markProcessed st i) k = { sessionAt st k with processed := true } := by
  unfold markProcessed
  by_cases hk : k = i
  · subst hk
    by_cases hlen : k < st.sessions.length
    · right
      rw [sessionAt_setSession_self _ _ _ hlen]
    · left
      exact sessionAt_congr _ _ (setSession_sessions_of_le _ _ _ (le_of_not_lt hlen)) k
  · left
    exact sessionAt_setSession_ne _ _ _ _ (fun h => hk h.symm)

theorem sessionAt_markProcessed_room (st : Sched) (i k : Nat) :
    (sessionAt (markProcessed st i) k).room = (sessionAt st k).room := by
  rcases sessionAt_markProcessed st i k with h | h <;> rw [h]

theorem sessionAt_markProcessed_slot (st : Sched) (i k : Nat) :
    (sessionAt (markProcessed st i) k).slot = (sessionAt st k).slot := by
  rcases sessionAt_markProcessed st i k with h | h <;> rw [h]

theorem sessionAt_markProcessed_updated (st : Sched) (i k : Nat) :
    (sessionAt (markProcessed st i) k).updated = (sessionAt st k).updated := by
  rcases sessionAt_markProcessed st i k with h | h <;> rw [h]

theorem markProcessed_roomSess (st : Sched) (i : Nat) :
    (markProcessed st i).roomSess = st.roomSess := rfl

/-! ## Invariant preservation -/

theorem commitAssign_EngineInv (rooms : List Room) (slots : List Slot) (st0 st : Sched)
    (i : Nat) (c : Constraints) (room : Room) (slot : Slot)
    (hroom : room ∈ possibleRoomsFor rooms st i c)
    (hslot : slot ∈ possibleSlotsFor slots st i c room)
    (hinv : EngineInv st0 st) :
    EngineInv st0 (commitAssign st i room slot) := by
  obtain ⟨hview, horigin, hnod⟩ := hinv
  by_cases hlen : i < st.sessions.length
  case neg =>
    have hsess : ∀ k, sessionAt (commitAssign st i room slot) k = sessionAt st k :=
      sessionAt_congr _ _ (commitAssign_sessions_of_le st i room slot (le_of_not_lt hlen))
    refine ⟨?_, ?_, ?_⟩
    · intro k r hk
      rw [hsess k] at hk
      exact commitAssign_mem_roomSess st i room slot r k (hview k r hk)
    · intro k hk
      rw [hsess k] at hk ⊢
      exact horigin k hk
    · intro k l r t hkl hrk hrl hsk hsl
      rw [hsess k] at hrk hsk
      rw [hsess l] at hrl hsl
      exact hnod k l r t hkl hrk hrl hsk hsl
  case pos =>
    have hself := commitAssign_sessionAt_self st i room slot hlen
    have hne : ∀ k, k ≠ i → sessionAt (commitAssign st i room slot) k = sessionAt st k :=
      fun k hk => commitAssign_sessionAt_ne st i room slot k hk
    refine ⟨?_, ?_, ?_⟩
    · -- ViewOK
      intro k r hk
      by_cases hki : k = i
      · subst hki
        rw [hself] at hk
        by_cases hr0 : (sessionAt st k).room = none
        · rw [if_pos hr0] at hk
          simp only [Option.some_inj] at hk
          subst hk
          exact commitAssign_self_mem_roomSess st k room slot hr0
        · rw [if_neg hr0] at hk
          exact commitAssign_mem_roomSess st k room slot r k (hview k r hk)
      · rw [hne k hki] at hk
        exact commitAssign_mem_roomSess st i room slot r k (hview k r hk)
    · -- SlotOrigin
      intro k hk
      by_cases hki : k = i
      · subst hki
        right
        rw [hself]
        by_cases hr0 : (sessionAt st k).room = none <;> simp [hr0]
      · rw [hne k hki] at hk ⊢
        exact horigin k hk
    · -- NoDouble
      intro k l r t hkl hrk hrl hsk hsl
      by_cases hki : k = i <;> by_cases hli : l = i
      · exact absurd (hki.trans hli.symm) hkl
      · -- k = i, l ≠ i
        subst hki
        rw [hne l hli] at hrl hsl
        rw [hself] at hrk hsk
        by_cases hs0 : (sessionAt st k).slot = none
        · -- slot of k newly assigned: fresh pair, l cannot occupy it
          rw [if_pos hs0] at hsk
          simp only [Option.some_inj] at hsk
          subst hsk
          have hrname : r = room.name := by
            by_cases hr0 : (sessionAt st k).room = none
            · rw [if_pos hr0] at hrk
              exact (Option.some_inj.mp hrk).symm
            · rw [if_neg hr0] at hrk
              cases hrv : (sessionAt st k).room with
              | none => exact absurd hrv hr0
              | some rn =>
                rw [hrv] at hrk
                have h1 : room.name = rn := possibleRooms_preset rooms st k c room rn hrv hroom
                rw [h1]
                exact (Option.some_inj.mp hrk).symm
          have hfresh := possibleSlots_fresh slots st k c room slot hs0 hslot
          subst hrname
          exact absurd hsl (hfresh l (hview l room.name hrl))
        · -- slot of k was preset
          rw [if_neg hs0] at hsk
          by_cases hr0 : (sessionAt st k).room = none
          · -- room newly assigned to k: k entered with its slot already set
            rcases horigin k hs0 with h0 | h0
            · exact Or.inl h0
            · exact absurd hr0 h0
          · -- nothing changed for k
            rw [if_neg hr0] at hrk
            exact hnod k l r t hkl hrk hrl hsk hsl
      · -- l = i, k ≠ i: symmetric
        subst hli
        rw [hne k hki] at hrk hsk
        rw [hself] at hrl hsl
        by_cases hs0 : (sessionAt st l).slot = none
        · rw [if_pos hs0] at hsl
          simp only [Option.some_inj] at hsl
          subst hsl
          have hrname : r = room.name := by
            by_cases hr0 : (sessionAt st l).room = none
            · rw [if_pos hr0] at hrl
              exact (Option.some_inj.mp hrl).symm
            · rw [if_neg hr0] at hrl
              cases hrv : (sessionAt st l).room with
              | none => exact absurd hrv hr0
              | some rn =>
                rw [hrv] at hrl
                have h1 : room.name = rn := possibleRooms_preset rooms st l c room rn hrv hroom
                rw [h1]
                exact (Option.some_inj.mp hrl).symm
          have hfresh := possibleSlots_fresh slots st l c room slot hs0 hslot
          subst hrname
          exact absurd hsk (hfresh k (hview k room.name hrk))
        · rw [if_neg hs0] at hsl
          by_cases hr0 : (sessionAt st l).room = none
          · rcases horigin l hs0 with h0 | h0
            · exact Or.inr h0
            · exact absurd hr0 h0
          · rw [if_neg hr0] at hrl
            exact hnod k l r t hkl hrk hrl hsk hsl
      · -- neither k nor l is i
        rw [hne k hki] at hrk hsk
        rw [hne l hli] at hrl hsl
        exact hnod k l r t hkl hrk hrl hsk hsl

theorem setRoomAndSlot_EngineInv (rooms : List Room) (slots : List Slot) (st0 st : Sched)
    (i : Nat) (c : Constraints) (st' : Sched)
    (h : setRoomAndSlot rooms slots st i c = some st') (hinv : EngineInv st0 st) :
    EngineInv st0 st' := by
  obtain ⟨room, hroom, slot, hfind, rfl⟩ := setRoomAndSlot_eq_some rooms slots st i c st' h
  exact commitAssign_EngineInv rooms slots st0 st i c room slot hroom
    (List.mem_of_find?_eq_some hfind) hinv

theorem markProcessed_EngineInv (st0 st : Sched) (i : Nat) (hinv : EngineInv st0 st) :
    EngineInv st0 (markProcessed st i) := by
  obtain ⟨hview, horigin, hnod⟩ := hinv
  refine ⟨?_, ?_, ?_⟩
  · intro k r hk
    rw [sessionAt_markProcessed_room] at hk
    rw [markProcessed_roomSess]
    exact hview k r hk
  · intro k hk
    rw [sessionAt_markProcessed_slot] at hk
    rw [sessionAt_markProcessed_room]
    exact horigin k hk
  · intro k l r t hkl hrk hrl hsk hsl
    rw [sessionAt_markProcessed_room] at hrk hrl
    rw [sessionAt_markProcessed_slot] at hsk hsl
    exact hnod k l r t hkl hrk hrl hsk hsl

theorem searchFuel_EngineInv (rooms : List Room) (slots : List Slot) (st0 : Sched) :
    ∀ (fuel : Nat) (st : Sched) (i : Nat) (c : Constraints), EngineInv st0 st →
    EngineInv st0 (searchFuel rooms slots fuel st i c).state := by
  intro fuel st i c hinv
  rcases searchFuel_state rooms slots fuel st i c with h | ⟨c', h⟩
  · rw [h]; exact hinv
  · exact setRoomAndSlot_EngineInv rooms slots st0 st i c' _ h hinv

theorem runTrackFuel_EngineInv (rooms : List Room) (slots : List Slot) (st0 : Sched) :
    ∀ (fuel : Nat) (st : Sched) (track : String) (tr : Option Room), EngineInv st0 st →
    EngineInv st0 (runTrackFuel rooms slots fuel st track tr).state := by
  intro fuel
  induction fuel with
  | zero => intro st track tr hinv; exact hinv
  | succ fuel ih =>
    intro st track tr hinv
    cases hsel : selectNextSession st track with
    | none => simpa [runTrackFuel, hsel] using hinv
    | some i =>
      simp only [runTrackFuel, hsel]
      exact ih _ track tr
        (searchFuel_EngineInv rooms slots st0 8 _ i _
          (markProcessed_EngineInv st0 st i hinv))

theorem runEngine_EngineInv (rooms : List Room) (slots : List Slot) (st0 st : Sched)
    (hinv : EngineInv st0 st) :
    EngineInv st0 (runEngine rooms slots st).state := by
  unfold runEngine
  generalize (collectTracks st.sessions) = tracks
  suffices h : ∀ (acc : RunResult), EngineInv st0 acc.state →
      EngineInv st0 (tracks.foldl (fun acc track =>
        let r := runTrackFuel rooms slots acc.state.sessions.length acc.state track
          (chooseTrackRoom rooms slots acc.state track)
        { state := r.state, log := acc.log ++ r.log }) acc).state by
    exact h { state := st, log := [] } hinv
  induction tracks with
  | nil => intro acc h; exact h
  | cons track rest ih =>
    intro acc h
    exact ih _ (runTrackFuel_EngineInv rooms slots st0 _ acc.state track _ h)

theorem mem_viewList (l : List Session) (k : Nat) (s : Session) (r : String)
    (hg : l.get? k = some s) (hr : s.room = some r) :
    k ∈ (l.enum.filter (fun p => p.2.room == some r)).map (fun p => p.1) := by
  refine List.mem_map.mpr ⟨(k, s), ?_, rfl⟩
  refine List.mem_filter.mpr ⟨?_, by simp [hr]⟩
  exact List.mk_mem_enum_iff_getElem?.mpr (by simpa using hg)

theorem prepare_ViewOK (raw : List Session) (parg : PreserveArg) (ex : Option (List Nat)) :
    ViewOK (prepare raw parg ex).1 := by
  intro k r hk
  unfold sessionAt at hk
  cases hg : (prepare raw parg ex).1.sessions.get? k with
  | none => rw [hg] at hk; exact absurd hk (by simp [defaultSession])
  | some s =>
    rw [hg] at hk
    simp only [Option.getD_some] at hk
    show k ∈ (prepare raw parg ex).1.roomSess r
    have : (prepare raw parg ex).1.roomSess r =
        ((prepare raw parg ex).1.sessions.enum.filter
          (fun p => p.2.room == some r)).map (fun p => p.1) := rfl
    rw [this]
    exact mem_viewList _ k s r hg hk

theorem EngineInv_refl (st0 : Sched) (h : ViewOK st0) : EngineInv st0 st0 := by
  refine ⟨h, fun k hk => Or.inl hk, fun k l r t _ _ _ hsk _ => Or.inl ?_⟩
  rw [hsk]
  simp

/-! ## Monotonicity of assignments -/

theorem preservesAssigned_trans (st1 st2 st3 : Sched)
    (h1 : PreservesAssigned st1 st2) (h2 : PreservesAssigned st2 st3) :
    PreservesAssigned st1 st3 :=
  fun k v => ⟨fun h => (h2 k v).1 ((h1 k v).1 h), fun h => (h2 k v).2 ((h1 k v).2 h)⟩

theorem commitAssign_preservesAssigned (st : Sched) (i : Nat) (room : Room) (slot : Slot) :
    PreservesAssigned st (commitAssign st i room slot) := by
  intro k v
  by_cases hlen : i < st.sessions.length
  · by_cases hki : k = i
    · subst hki
      constructor <;> intro h <;>
        rw [commitAssign_sessionAt_self st k room slot hlen] <;>
        simp [h]
    · rw [commitAssign_sessionAt_ne st i room slot k hki]
      exact ⟨id, id⟩
  · rw [sessionAt_congr _ _ (commitAssign_sessions_of_le st i room slot (le_of_not_lt hlen)) k]
    exact ⟨id, id⟩

theorem markProcessed_preservesAssigned (st : Sched) (i : Nat) :
    PreservesAssigned st (markProcessed st i) := by
  intro k v
  rw [sessionAt_markProcessed_room, sessionAt_markProcessed_slot]
  exact ⟨id, id⟩

theorem setRoomAndSlot_preservesAssigned (rooms : List Room) (slots : List Slot)
    (st : Sched) (i : Nat) (c : Constraints) (st' : Sched)
    (h : setRoomAndSlot rooms slots st i c = some st') :
    PreservesAssigned st st' := by
  obtain ⟨room, _, slot, _, rfl⟩ := setRoomAndSlot_eq_some rooms slots st i c st' h
  exact commitAssign_preservesAssigned st i room slot

theorem searchFuel_preservesAssigned (rooms : List Room) (slots : List Slot)
    (fuel : Nat) (st : Sched) (i : Nat) (c : Constraints) :
    PreservesAssigned st (searchFuel rooms slots fuel st i c).state := by
  rcases searchFuel_state rooms slots fuel st i c with h | ⟨c', h⟩
  · rw [h]; exact fun k v => ⟨id, id⟩
  · exact setRoomAndSlot_preservesAssigned rooms slots st i c' _ h

theorem runTrackFuel_preservesAssigned (rooms : List Room) (slots : List Slot) :
    ∀ (fuel : Nat) (st : Sched) (track : String) (tr : Option Room),
    PreservesAssigned st (runTrackFuel rooms slots fuel st track tr).state := by
  intro fuel
  induction fuel with
  | zero => intro st track tr; exact fun k v => ⟨id, id⟩
  | succ fuel ih =>
    intro st track tr
    cases hsel : selectNextSession st track with
    | none => simp only [runTrackFuel, hsel]; exact fun k v => ⟨id, id⟩
    | some i =>
      simp only [runTrackFuel, hsel]
      refine preservesAssigned_trans _ _ _ ?_ (ih _ track tr)
      exact preservesAssigned_trans _ _ _ (markProcessed_preservesAssigned st i)
        (searchFuel_preservesAssigned rooms slots 8 _ i _)

theorem runEngine_preservesAssigned (rooms : List Room) (slots : List Slot) (st : Sched) :
    PreservesAssigned st (runEngine rooms slots st).state := by
  unfold runEngine
  generalize (collectTracks st.sessions) = tracks
  suffices h : ∀ (acc : RunResult), PreservesAssigned acc.state
      (tracks.foldl (fun acc track =>
        let r := runTrackFuel rooms slots acc.state.sessions.length acc.state track
          (chooseTrackRoom rooms slots acc.state track)
        { state := r.state, log := acc.log ++ r.log }) acc).state by
    exact h { state := st, log := [] }
  induction tracks with
  | nil => intro acc; exact fun k v => ⟨id, id⟩
  | cons track rest ih =>
    intro acc
    rw [List.foldl_cons]
    refine preservesAssigned_trans _ _ _ ?_ (ih _)
    exact runTrackFuel_preservesAssigned rooms slots _ acc.state track _

/-! ## The updated flag is never set -/

theorem commitAssign_NoUpdated (st : Sched) (i : Nat) (room : Room) (slot : Slot)
    (h : NoUpdated st) : NoUpdated (commitAssign st i room slot) := by
  intro k
  by_cases hlen : i < st.sessions.length
  · by_cases hki : k = i
    · subst hki
      rw [commitAssign_sessionAt_self st k room slot hlen]
      exact h k
    · rw [commitAssign_sessionAt_ne st i room slot k hki]
      exact h k
  · rw [sessionAt_congr _ _ (commitAssign_sessions_of_le st i room slot (le_of_not_lt hlen)) k]
    exact h k

theorem markProcessed_NoUpdated (st : Sched) (i : Nat) (h : NoUpdated st) :
    NoUpdated (markProcessed st i) := by
  intro k
  rw [sessionAt_markProcessed_updated]
  exact h k

theorem setRoomAndSlot_NoUpdated (rooms : List Room) (slots : List Slot)
    (st : Sched) (i : Nat) (c : Constraints) (st' : Sched)
    (hs : setRoomAndSlot rooms slots st i c = some st') (h : NoUpdated st) :
    NoUpdated st' := by
  obtain ⟨room, _, slot, _, rfl⟩ := setRoomAndSlot_eq_some rooms slots st i c st' hs
  exact commitAssign_NoUpdated st i room slot h

theorem searchFuel_NoUpdated (rooms : List Room) (slots : List Slot)
    (fuel : Nat) (st : Sched) (i : Nat) (c : Constraints) (h : NoUpdated st) :
    NoUpdated (searchFuel rooms slots fuel st i c).state := by
  rcases searchFuel_state rooms slots fuel st i c with he | ⟨c', he⟩
  · rw [he]; exact h
  · exact setRoomAndSlot_NoUpdated rooms slots st i c' _ he h

theorem runTrackFuel_NoUpdated (rooms : List Room) (slots : List Slot) :
    ∀ (fuel : Nat) (st : Sched) (track : String) (tr : Option Room), NoUpdated st →
    NoUpdated (runTrackFuel rooms slots fuel st track tr).state := by
  intro fuel
  induction fuel with
  | zero => intro st track tr h; exact h
  | succ fuel ih =>
    intro st track tr h
    cases hsel : selectNextSession st track with
    | none => simpa [runTrackFuel, hsel] using h
    | some i =>
      simp only [runTrackFuel, hsel]
      exact ih _ track tr
        (searchFuel_NoUpdated rooms slots 8 _ i _ (markProcessed_NoUpdated st i h))

theorem runEngine_NoUpdated (rooms : List Room) (slots : List Slot) (st : Sched)
    (h : NoUpdated st) : NoUpdated (runEngine rooms slots st).state := by
  unfold runEngine
  generalize (collectTracks st.sessions) = tracks
  suffices hh : ∀ (acc : RunResult), NoUpdated acc.state →
      NoUpdated (tracks.foldl (fun acc track =>
        let r := runTrackFuel rooms slots acc.state.sessions.length acc.state track
          (chooseTrackRoom rooms slots acc.state track)
        { state := r.state, log := acc.log ++ r.log }) acc).state by
    exact hh { state := st, log := [] } h
  induction tracks with
  | nil => intro acc ha; exact ha
  | cons track rest ih =>
    intro acc ha
    exact ih _ (runTrackFuel_NoUpdated rooms slots _ acc.state track _ ha)

/-! ## Facts about `prepare` -/

theorem prepare_sessions_get (raw : List Session) (parg : PreserveArg)
    (ex : Option (List Nat)) (i : Nat) :
    (prepare raw parg ex).1.sessions.get? i = (raw.get? i).map (fun s =>
      let s1 := normalizeCapacity s
      let s2 := clearNonPreserved (prepare raw parg ex).2 s1
      { s2 with tracks := s2.labels.filterMap trackOfLabel, track := none,
                processed := false, updated := false }) := by
  simp only [prepare, List.get?_map]
  cases raw.get? i <;> rfl

theorem normalizeCapacity_number (s : Session) :
    (normalizeCapacity s).number = s.number := by
  unfold normalizeCapacity; split <;> rfl

theorem normalizeCapacity_room (s : Session) :
    (normalizeCapacity s).room = s.room := by
  unfold normalizeCapacity; split <;> rfl

theorem normalizeCapacity_slot (s : Session) :
    (normalizeCapacity s).slot = s.slot := by
  unfold normalizeCapacity; split <;> rfl

theorem clearNonPreserved_of_mem (pres : List Nat) (s : Session)
    (h : s.number ∈ pres) : clearNonPreserved pres s = s := by
  simp [clearNonPreserved, h]

theorem prepare_preserved_fields (raw : List Session) (parg : PreserveArg)
    (ex : Option (List Nat)) (i : Nat)
    (hmem : (rawAt raw i).number ∈ (prepare raw parg ex).2) :
    (sessionAt (prepare raw parg ex).1 i).room = (rawAt raw i).room ∧
    (sessionAt (prepare raw parg ex).1 i).slot = (rawAt raw i).slot := by
  unfold rawAt at hmem
  unfold sessionAt rawAt
  rw [prepare_sessions_get]
  cases hg : raw.get? i with
  | none =>
    simp
  | some s =>
    rw [hg, Option.getD_some] at hmem
    simp only [Option.map_some', Option.getD_some]
    have hnum : (normalizeCapacity s).number ∈ (prepare raw parg ex).2 := by
      rw [normalizeCapacity_number]; exact hmem
    constructor
    · show (clearNonPreserved (prepare raw parg ex).2 (normalizeCapacity s)).room = s.room
      rw [clearNonPreserved_of_mem _ _ hnum, normalizeCapacity_room]
    · show (clearNonPreserved (prepare raw parg ex).2 (normalizeCapacity s)).slot = s.slot
      rw [clearNonPreserved_of_mem _ _ hnum, normalizeCapacity_slot]

theorem prepare_NoUpdated (raw : List Session) (parg : PreserveArg)
    (ex : Option (List Nat)) : NoUpdated (prepare raw parg ex).1 := by
  intro k
  unfold sessionAt
  rw [prepare_sessions_get]
  cases raw.get? k <;> rfl

theorem NoUpdated_sessionsToUpdate (st : Sched) (h : NoUpdated st) :
    sessionsToUpdate st = [] := by
  refine List.filter_eq_nil_iff.mpr ?_
  intro s hs
  obtain ⟨k, hk⟩ := List.get_of_mem hs
  have : sessionAt st k = s := by simp [sessionAt, ← hk, List.get?_eq_get k.isLt]
  have hu := h k
  rw [this] at hu
  simp [hu]

/-! ## The relaxation ladder, step by step -/

theorem searchLadder_helper (rooms : List Room) (slots : List Slot) (st : Sched)
    (i : Nat) (r : Room) :
    ((searchSession rooms slots st i (some r)).attempts.head? =
        some (initConstraints (some r)) ∧
      ∃ k, (searchSession rooms slots st i (some r)).attempts = (ladder r).take k) ∧
    ((searchSession rooms slots st i (some r)).success = none →
      (searchSession rooms slots st i (some r)).attempts = ladder r ∧
      (searchSession rooms slots st i (some r)).state = st) := by
  unfold searchSession
  cases h0 : setRoomAndSlot rooms slots st i
      { trackRoom := some r, strictDuration := true, meetDuration := true,
        meetCapacity := true, meetConflicts := [.session, .track] } with
  | some st1 =>
    refine ⟨⟨?_, 1, ?_⟩, ?_⟩ <;> simp [searchFuel, h0, ladder, initConstraints]
  | none =>
  cases h1 : setRoomAndSlot rooms slots st i
      { trackRoom := some r, strictDuration := false, meetDuration := true,
        meetCapacity := true, meetConflicts := [.session, .track] } with
  | some st1 =>
    refine ⟨⟨?_, 2, ?_⟩, ?_⟩ <;> simp [searchFuel, relax, h0, h1, ladder, initConstraints]
  | none =>
  cases h2 : setRoomAndSlot rooms slots st i
      { trackRoom := none, strictDuration := false, meetDuration := true,
        meetCapacity := true, meetConflicts := [.session, .track] } with
  | some st1 =>
    refine ⟨⟨?_, 3, ?_⟩, ?_⟩ <;> simp [searchFuel, relax, h0, h1, h2, ladder, initConstraints]
  | none =>
  cases h3 : setRoomAndSlot rooms slots st i
      { trackRoom := none, strictDuration := false, meetDuration := false,
        meetCapacity := true, meetConflicts := [.session, .track] } with
  | some st1 =>
    refine ⟨⟨?_, 4, ?_⟩, ?_⟩ <;>
      simp [searchFuel, relax, h0, h1, h2, h3, ladder, initConstraints]
  | none =>
  cases h4 : setRoomAndSlot rooms slots st i
      { trackRoom := none, strictDuration := false, meetDuration := false,
        meetCapacity := false, meetConflicts := [.session, .track] } with
  | some st1 =>
    refine ⟨⟨?_, 5, ?_⟩, ?_⟩ <;>
      simp [searchFuel, relax, h0, h1, h2, h3, h4, ladder, initConstraints]
  | none =>
  cases h5 : setRoomAndSlot rooms slots st i
      { trackRoom := none, strictDuration := false, meetDuration := false,
        meetCapacity := false, meetConflicts := [.track] } with
  | some st1 =>
    refine ⟨⟨?_, 6, ?_⟩, ?_⟩ <;>
      simp [searchFuel, relax, h0, h1, h2, h3, h4, h5, ladder, initConstraints]
  | none =>
  cases h6 : setRoomAndSlot rooms slots st i
      { trackRoom := none, strictDuration := false, meetDuration := false,
        meetCapacity := false, meetConflicts := [.session] } with
  | some st1 =>
    refine ⟨⟨?_, 7, ?_⟩, ?_⟩ <;>
      simp [searchFuel, relax, h0, h1, h2, h3, h4, h5, h6, ladder, initConstraints]
  | none =>
  cases h7 : setRoomAndSlot rooms slots st i
      { trackRoom := none, strictDuration := false, meetDuration := false,
        meetCapacity := false, meetConflicts := [] } with
  | some st1 =>
    refine ⟨⟨?_, 8, ?_⟩, ?_⟩ <;>
      simp [searchFuel, relax, h0, h1, h2, h3, h4, h5, h6, h7, ladder, initConstraints]
  | none =>
    refine ⟨⟨?_, 8, ?_⟩, ?_⟩ <;>
      simp [searchFuel, relax, h0, h1, h2, h3, h4, h5, h6, h7, ladder, initConstraints]

theorem chairConflict_blocks (st : Sched) (i : Nat) (c : Constraints) (slot : Slot)
    (h : chairConflictExists st i slot.name = true) :
    nonConflictingSlot st i c slot = false := by
  simp [nonConflictingSlot, h]

/-! # The claims -/

/-- C1 (amended).  For every session search with a track home room `r` in
effect, the engine first tries the full constraint set; on each failure it
relaxes exactly one constraint, walking the fixed ladder `ladder r`
(strict→loose duration, drop track room, drop duration, drop capacity,
conflicts {session,track} → {track} → {session} → {}) — the attempted levels
are always a prefix of the ladder; chair conflicts block a slot at every
constraint level; and when even the last level fails, the session's state is
left exactly as it was — which leaves it unscheduled unless it already held a
preserved room and slot pair — and the per-track loop carries on with the
next session.  (The claim's "left unscheduled" is amended to "left
unchanged": see the counterexample, where a fully preserved session fails
every level yet stays scheduled.) -/
theorem c1_relaxation_ladder (rooms : List Room) (slots : List Slot) (st : Sched)
    (i : Nat) (r : Room) :
    ((searchSession rooms slots st i (some r)).attempts.head? =
        some (initConstraints (some r)) ∧
      ∃ k, (searchSession rooms slots st i (some r)).attempts = (ladder r).take k) ∧
    ((searchSession rooms slots st i (some r)).success = none →
      (searchSession rooms slots st i (some r)).attempts = ladder r ∧
      (searchSession rooms slots st i (some r)).state = st) ∧
    (∀ (c : Constraints) (slot : Slot), chairConflictExists st i slot.name = true →
      nonConflictingSlot st i c slot = false) ∧
    (∀ (fuel : Nat) (st2 : Sched) (track : String) (tr : Option Room) (j : Nat),
      selectNextSession st2 track = some j →
      (runTrackFuel rooms slots (fuel + 1) st2 track tr).state =
        (runTrackFuel rooms slots fuel
          (searchSession rooms slots (markProcessed st2 j) j tr).state track tr).state) := by
  refine ⟨(searchLadder_helper rooms slots st i r).1,
    (searchLadder_helper rooms slots st i r).2, ?_, ?_⟩
  · intro c slot h
    exact chairConflict_blocks st i c slot h
  · intro fuel st2 track tr j hsel
    simp [runTrackFuel, hsel]

/-- C1 witness: with a track room, one candidate session and an empty slot
inventory, the search fails at every level after attempting the whole
eight-step ladder, leaving the state untouched. -/
theorem c1_relaxation_ladder_witness :
    (searchSession [⟨"R", 10⟩] [] stC1w 0 (some ⟨"R", 10⟩)).attempts =
      ladder ⟨"R", 10⟩ ∧
    (searchSession [⟨"R", 10⟩] [] stC1w 0 (some ⟨"R", 10⟩)).state = stC1w :=
  (c1_relaxation_ladder [⟨"R", 10⟩] [] stC1w 0 ⟨"R", 10⟩).2.1 (by decide)

/-- C1 counterexample: both sessions of `rawC1` enter fully preserved in the
same slot with the same chair login; for each, the search fails at every
level of the (no-track-room) ladder, yet the session ends the run still
scheduled — not "left unscheduled" as the claim states. -/
theorem c1_counterexample :
    runC1.log = [(0, mainLadder, none), (1, mainLadder, none)] ∧
    (sessionAt runC1.state 0).room = some "RA" ∧
    (sessionAt runC1.state 0).slot = some "T" := by
  decide

/-- C2 (amended).  If a session's search succeeds at a constraint level that
still enforces capacity (`meetCapacity = true`, which holds exactly when the
capacity constraint was never relaxed, as relaxation only clears it), with no
track home room in effect at that level and no preserved room on the session,
then the room it was assigned comes from the room inventory and meets the
session's (normalized) capacity preference.  (The claim's inclusion of
track-home-room and preserved-room placements is dropped: the counterexample
shows a preserved-room placement that never relaxed capacity yet violates
it.) -/
theorem c2_capacity_when_enforced (rooms : List Room) (slots : List Slot) (st : Sched)
    (i : Nat) (tr : Option Room) (c : Constraints) (rname : String)
    (hsucc : (searchSession rooms slots st i tr).success = some c)
    (hcap : c.meetCapacity = true)
    (htr : c.trackRoom = none)
    (hroom0 : (sessionAt st i).room = none)
    (hres : (sessionAt (searchSession rooms slots st i tr).state i).room = some rname) :
    ∃ room ∈ rooms, room.name = rname ∧
      (sessionAt st i).description.capacity ≤ room.capacity := by
  unfold searchSession at hsucc hres
  have hset := searchFuel_success rooms slots 8 st i (initConstraints tr) c hsucc
  obtain ⟨room, hroommem, slot, hfind, hst⟩ :=
    setRoomAndSlot_eq_some rooms slots st i c _ hset
  have hcapmem := possibleRooms_capacity rooms st i c room hroom0 htr hcap hroommem
  rw [hst] at hres
  by_cases hlen : i < st.sessions.length
  · rw [commitAssign_sessionAt_self st i room slot hlen] at hres
    simp only [hroom0, if_pos] at hres
    exact ⟨room, hcapmem.1, Option.some_inj.mp hres, hcapmem.2⟩
  · rw [sessionAt_congr _ _
      (commitAssign_sessions_of_le st i room slot (le_of_not_lt hlen)) i] at hres
    rw [hroom0] at hres
    exact absurd hres (by simp)

/-- C2 witness: a fresh capacity-30 session with rooms of capacity 10 and 50
on offer is placed, at the full constraint set, in the capacity-50 room. -/
theorem c2_capacity_when_enforced_witness :
    ∃ room ∈ roomsC2w, room.name = "B" ∧
      (sessionAt stC2w 0).description.capacity ≤ room.capacity :=
  c2_capacity_when_enforced roomsC2w slotsC2 stC2w 0 none (initConstraints none) "B"
    (by decide) (by decide) (by decide) (by decide) (by decide)

/-- C2 counterexample: a session with capacity preference 40 and a preserved
room of capacity 10 ends the run placed, with its search succeeding at the
full constraint set (capacity never relaxed, as the run log shows) — yet the
assigned room's capacity is below the preference. -/
theorem c2_counterexample :
    runC2.log = [(0, [initConstraints none], some (initConstraints none))] ∧
    (initConstraints none).meetCapacity = true ∧
    (sessionAt runC2.state 0).room = some "R" ∧
    (sessionAt runC2.state 0).slot = some "T" ∧
    (sessionAt runC2.state 0).description.capacity = 40 ∧
    (∃ room ∈ roomsC2, room.name = "R" ∧ room.capacity = 10) ∧
    ¬((sessionAt runC2.state 0).description.capacity ≤ 10) := by
  decide

/-- C3 (amended).  The chair-conflict predicate fires exactly when some
session already occupying the candidate slot (excluding the candidate
session itself) has a chair matching one of the candidate's chairs under the
code's rule `chairsMatch`: occupant-chair login present and equal, **or**
occupant-chair name present and equal — the name comparison applies even
when both chairs have (different) logins, unlike the claim's
"by login when both have one, else by name".  The predicate is enforced at
every relaxation level. -/
theorem c3_chair_conflict (st : Sched) (i : Nat) (c : Constraints) (slot : Slot) :
    (chairConflictExists st i slot.name = true ↔
      ∃ s ∈ occupantsExcept st i slot.name, ∃ c1 ∈ s.chairs,
        ∃ c2 ∈ (sessionAt st i).chairs, chairsMatch c1 c2 = true) ∧
    (chairConflictExists st i slot.name = true →
      nonConflictingSlot st i c slot = false) := by
  constructor
  · simp [chairConflictExists, List.any_eq_true]
  · intro h
    exact chairConflict_blocks st i c slot h

/-- C3 witness: in the `stC3` scenario the chair predicate fires and blocks
the slot at the full constraint set. -/
theorem c3_chair_conflict_witness :
    nonConflictingSlot stC3 1 (initConstraints none) ⟨"T", 60, 0⟩ = false :=
  (c3_chair_conflict stC3 1 (initConstraints none) ⟨"T", 60, 0⟩).2 (by decide)

/-- C3 counterexample: occupant chair (login "alice", name "X") against
candidate chair (login "bob", name "X").  Both chairs have logins, and the
logins differ, so under the claim's identity rule no identity is shared —
yet the code's predicate fires (and blocks the slot), because it also
compares names when logins are present but different. -/
theorem c3_counterexample :
    chairConflictExists stC3 1 "T" = true ∧
    nonConflictingSlot stC3 1 (initConstraints none) ⟨"T", 60, 0⟩ = false ∧
    ((occupantsExcept stC3 1 "T").all (fun s => s.chairs.all (fun c1 =>
      (sessionAt stC3 1).chairs.all (fun c2 => !(specChairIdentityShared c1 c2))))) =
      true := by
  decide

/-- C4: the home-room selector's load count does not exclude the track's own
placements.  `slotsTaken` reads `curr.track`, a property never assigned, so
the exclusion never triggers: in `stC4`, room R1 holds exactly one session
and it belongs to track "t", yet `slotsTaken` reports load 1 where the
spec's metric (`specSlotsTaken`) reports 0 — and in consequence
`chooseTrackRoom` rejects the requested room R1 (same-room feasibility
appears to fail) and picks R2 instead. -/
theorem c4_track_room_load_bug :
    slotsTaken stC4 "t" ⟨"R1", 10⟩ = 1 ∧
    specSlotsTaken stC4 "t" ⟨"R1", 10⟩ = 0 ∧
    stC4.roomSess "R1" = [0] ∧
    (sessionAt stC4 0).tracks = ["t"] ∧
    chooseTrackRoom roomsC4 slotsC4 stC4 "t" = some ⟨"R2", 10⟩ := by
  decide

/-- C5: the except filter is a no-op.  Line 142 filters the *numbers* in
`preserve` with `s.number`, which is undefined on a number, so
`except.includes(undefined)` is always false and nothing is removed: in
general `applyExcept l (some ex) = l`, and concretely session 42 — excepted
from preserve "all" — keeps its room and slot through normalization instead
of having them cleared. -/
theorem c5_except_filter_noop :
    (∀ (l ex : List Nat), applyExcept l (some ex) = l) ∧
    (prepare rawC5 .all (some [42])).2 = [42] ∧
    (sessionAt (prepare rawC5 .all (some [42])).1 0).room = some "R" ∧
    (sessionAt (prepare rawC5 .all (some [42])).1 0).slot = some "T" := by
  refine ⟨?_, by decide, by decide, by decide⟩
  intro l ex
  simp [applyExcept, jsIncludesOpt, numberProp]

/-- C6: no session is ever marked `updated`.  The commit step never sets the
flag (nothing in the run does), so the apply phase's
`sessions.filter(s => s.updated)` is empty for every run — even when the run
did change assignments, as in `runC6`, where session 1 starts with no room
or slot and ends placed. -/
theorem c6_updated_never_marked :
    (∀ (rooms : List Room) (slots : List Slot) (raw : List Session)
        (parg : PreserveArg) (ex : Option (List Nat)),
      sessionsToUpdate (runEngine rooms slots (prepare raw parg ex).1).state = []) ∧
    (sessionAt runC6.state 0).room = some "R" ∧
    (sessionAt runC6.state 0).slot = some "T1" ∧
    (sessionAt (prepare rawC6 (.ids []) none).1 0).room = none ∧
    (sessionAt (prepare rawC6 (.ids []) none).1 0).slot = none := by
  refine ⟨?_, by decide, by decide, by decide, by decide⟩
  intro rooms slots raw parg ex
  exact NoUpdated_sessionsToUpdate _
    (runEngine_NoUpdated rooms slots _ (prepare_NoUpdated raw parg ex))

/-- C7: the seed defaulting happens after the shuffle.  When no seed is
supplied the shuffle runs on the generator's self-seeded stream while the
reported seed is generated afterwards (from the fixed lowercase alphabet, as
the third conjunct shows for every draw stream) — so re-running with the
reported seed can produce a different order, as the exhibited generator
model shows. -/
theorem c7_seed_generated_after_shuffle :
    (suggestGridShuffle prngC7 entropyC7 none sessionsC7).2 = "aaaaa" ∧
    (suggestGridShuffle prngC7 entropyC7 (some "aaaaa") sessionsC7).1 ≠
      (suggestGridShuffle prngC7 entropyC7 none sessionsC7).1 ∧
    (∀ draws : Nat → Nat,
      ((makeseed draws).data.all (fun ch => ch ∈ makeseedChars)) = true) := by
  refine ⟨by decide, by decide, ?_⟩
  intro draws
  simp only [makeseed, List.all_eq_true]
  intro ch hch
  simp only [List.mem_map] at hch
  obtain ⟨k, _, rfl⟩ := hch
  have hlt : draws k % 26 < makeseedChars.length := Nat.mod_lt _ (by decide)
  rw [List.getD_eq_getElem _ _ hlt]
  exact decide_eq_true (List.getElem_mem hlt)

/-- C8: a syntactically well-formed comma-separated list argument crashes the
argument parser instead of being accepted: it passes the regex test but then
`argv.map` is called on a string, which has no such method (`.crash`).  Only
"all"/"none" parse; a malformed argument is a usage error. -/
theorem c8_argv_list_crash :
    parsePreserveArg "12,34" = .crash ∧
    parsePreserveArg "all" = .ok .all ∧
    parsePreserveArg "none" = .ok (.ids []) ∧
    parsePreserveArg "wxyz" = .usage ∧
    parseExceptArg "5,6" = .crash ∧
    parseExceptArg "none" = .ok none := by
  decide

/-- C9: preservation honored.  For any session index whose number is in the
resolved preserve list (after the except filter), whatever room and slot
values it carried at load time are still its values at the end of the run:
normalization does not clear them, and the engine never overwrites an
already-set assignment field. -/
theorem c9_preservation (rooms : List Room) (slots : List Slot) (raw : List Session)
    (parg : PreserveArg) (ex : Option (List Nat)) (i : Nat)
    (hmem : (rawAt raw i).number ∈ (prepare raw parg ex).2) :
    (∀ v, (rawAt raw i).room = some v →
      (sessionAt (runEngine rooms slots (prepare raw parg ex).1).state i).room = some v) ∧
    (∀ v, (rawAt raw i).slot = some v →
      (sessionAt (runEngine rooms slots (prepare raw parg ex).1).state i).slot = some v) := by
  have hp := prepare_preserved_fields raw parg ex i hmem
  have hm := runEngine_preservesAssigned rooms slots (prepare raw parg ex).1
  constructor
  · intro v hv
    exact (hm i v).1 (by rw [hp.1]; exact hv)
  · intro v hv
    exact (hm i v).2 (by rw [hp.2]; exact hv)

/-- C9 witness: preserved session 7 keeps room "R" and slot "T1" through a
run in which a second session competes for the same room. -/
theorem c9_preservation_witness :
    (sessionAt (runEngine roomsC6 slotsC6 prepC9w.1).state 0).room = some "R" ∧
    (sessionAt (runEngine roomsC6 slotsC6 prepC9w.1).state 0).slot = some "T1" :=
  ⟨(c9_preservation roomsC6 slotsC6 rawC9w .all none 0 (by decide)).1 "R" (by decide),
   (c9_preservation roomsC6 slotsC6 rawC9w .all none 0 (by decide)).2 "T1" (by decide)⟩

/-- C10: no double booking among engine-assigned slots.  Two distinct
sessions that both enter the engine with no preserved slot never end the run
in the same (room, slot) pair; the second conjunct shows the caveat is real:
a session entering with a preserved slot but no room (session index 1 of
`rawC10x`) is placed into a room already occupied at that slot, colliding
with a fresh session. -/
theorem c10_no_double_booking :
    (∀ (rooms : List Room) (slots : List Slot) (raw : List Session)
        (parg : PreserveArg) (ex : Option (List Nat)) (i j : Nat) (r t : String),
      i ≠ j →
      (sessionAt (prepare raw parg ex).1 i).slot = none →
      (sessionAt (prepare raw parg ex).1 j).slot = none →
      (sessionAt (runEngine rooms slots (prepare raw parg ex).1).state i).room = some r →
      (sessionAt (runEngine rooms slots (prepare raw parg ex).1).state j).room = some r →
      (sessionAt (runEngine rooms slots (prepare raw parg ex).1).state i).slot = some t →
      (sessionAt (runEngine rooms slots (prepare raw parg ex).1).state j).slot ≠ some t) ∧
    ((sessionAt prepC10x 1).slot = some "T1" ∧ (sessionAt prepC10x 1).room = none ∧
     (sessionAt prepC10x 0).slot = none ∧
     (sessionAt runC10x.state 0).room = some "R" ∧
     (sessionAt runC10x.state 0).slot = some "T1" ∧
     (sessionAt runC10x.state 1).room = some "R" ∧
     (sessionAt runC10x.state 1).slot = some "T1") := by
  constructor
  · intro rooms slots raw parg ex i j r t hij hi0 hj0 hri hrj hsi hsj
    have hinv := runEngine_EngineInv rooms slots (prepare raw parg ex).1
      (prepare raw parg ex).1 (EngineInv_refl _ (prepare_ViewOK raw parg ex))
    rcases hinv.2.2 i j r t hij hri hrj hsi hsj with h | h
    · exact h hi0
    · exact h hj0
  · decide

/-- C10 witness: two fresh sessions placed in the same room land in
different slots. -/
theorem c10_no_double_booking_witness :
    (sessionAt (runEngine roomsC10 slotsC10w prepC10w).state 1).slot ≠ some "T1" :=
  c10_no_double_booking.1 roomsC10 slotsC10w rawC10w (.ids []) none 0 1 "R" "T1"
    (by decide) (by decide) (by decide) (by decide) (by decide) (by decide)

end SuggestGrid
